import Mathlib

/-!
Verification of the research pipeline of `src/agents/research_agent.py`
(class `ResearchAgent`) against its natural-language specification.

The Python source is shallowly embedded: pure helpers become Lean
functions on `String` / `List Char`, Python `float` scores are modelled
as exact rationals (`ℚ`), Python exceptions become `Except`, and the
external LLM / Tavily calls become oracle parameters supplying the
value (or the exception) that the library call would have produced.
The five `re.sub` calls of `_regex_anonymize` are embedded through a
small backtracking regular-expression engine that mirrors Python `re`
semantics (leftmost match, greedy quantifiers, `\b` word boundaries,
non-overlapping substitution scanning the original text).
-/

deriving instance DecidableEq for Except

namespace PChat

/-! ### Python string helpers -/

/-- Python `\w` (ASCII): letters, digits and underscore. -/
def isWordChar (c : Char) : Bool := c.isAlphanum || c == '_'

/-- Python `str.isspace` characters (ASCII range used by `\s`). -/
def isPySpace (c : Char) : Bool :=
  c == ' ' || c == '\t' || c == '\n' || c == '\r' ||
  c == Char.ofNat 11 || c == Char.ofNat 12

/-- Does `needle` occur at the head of `hay`? -/
def leadEq : List Char → List Char → Bool
  | [], _ => true
  | _ :: _, [] => false
  | a :: as, b :: bs => a == b && leadEq as bs

/-- Substring occurrence on character lists (Python `needle in hay`). -/
def subList : List Char → List Char → Bool
  | needle, [] => leadEq needle []
  | needle, c :: rest => leadEq needle (c :: rest) || subList needle rest

/-- Python `needle in hay` for strings. -/
def pyIn (needle hay : String) : Bool := subList needle.data hay.data

/-- Auxiliary for `pySplit`: split on whitespace runs, dropping empties. -/
def splitWsAux : List Char → List Char → List (List Char)
  | [], acc => if acc.isEmpty then [] else [acc.reverse]
  | c :: cs, acc =>
    if isPySpace c then
      if acc.isEmpty then splitWsAux cs [] else acc.reverse :: splitWsAux cs []
    else splitWsAux cs (c :: acc)

/-- Python `str.split()` with no separator: split on whitespace runs. -/
def pySplit (s : String) : List String := (splitWsAux s.data []).map String.mk

/-- Python `str.strip()` with no argument: drop whitespace from both
ends. -/
def pyStrip (s : String) : String :=
  String.mk (((s.data.dropWhile isPySpace).reverse.dropWhile isPySpace).reverse)

/-- Python `str.lower()` (ASCII range). -/
def pyLower (s : String) : String := String.mk (s.data.map Char.toLower)

/-- Python `s[:n]` character-prefix slicing. -/
def pyTake (s : String) (n : Nat) : String := String.mk (s.data.take n)

/-- Python `min(a, b)` on rationals (Mathlib's `min` is definitionally
opaque to kernel reduction; this matches it and Python exactly). -/
def pyMinQ (a b : ℚ) : ℚ := if a ≤ b then a else b

/-- Python `s.split('\n')`: split at every newline, keeping empties. -/
def splitNl : List Char → List (List Char)
  | [] => [[]]
  | c :: cs =>
    if c == '\n' then [] :: splitNl cs
    else
      match splitNl cs with
      | [] => [[c]]
      | w :: ws => (c :: w) :: ws

/-! ### Regular-expression engine (Python `re` semantics)

Patterns are the exact regexes of `ResearchAgent._regex_anonymize`.
`mrun` is a continuation-passing backtracking matcher: it returns the
first successful way (in Python's backtracking order: greedy
quantifiers try longer first) to match `r` at the current position and
then satisfy the continuation, yielding the last consumed character
(for later `\b` tests) and the remaining input. -/

inductive RE where
  | eps
  | cls (p : Char → Bool)
  | chr (c : Char)
  | seq (a b : RE)
  | rep (lo : Nat) (hi : Option Nat) (a : RE)
  | opt (a : RE)
  | wb

/-- `\b`: exactly one side of the position is a word character. -/
def wordBoundaryAt (prev : Option Char) (rest : List Char) : Bool :=
  let p := match prev with | none => false | some c => isWordChar c
  let n := match rest with | [] => false | c :: _ => isWordChar c
  p != n

def mrun : Nat → RE → Option Char → List Char →
    (Option Char → List Char → Option (Option Char × List Char)) →
    Option (Option Char × List Char)
  | 0, _, _, _, _ => none
  | fuel + 1, r, prev, s, k =>
    match r with
    | .eps => k prev s
    | .cls p =>
      match s with
      | [] => none
      | c :: rest => if p c then k (some c) rest else none
    | .chr c0 =>
      match s with
      | [] => none
      | c :: rest => if c == c0 then k (some c) rest else none
    | .seq a b => mrun fuel a prev s (fun p2 s2 => mrun fuel b p2 s2 k)
    | .opt a =>
      match mrun fuel a prev s k with
      | some r2 => some r2
      | none => k prev s
    | .wb => if wordBoundaryAt prev s then k prev s else none
    | .rep lo hi a =>
      let more :=
        match hi with
        | some 0 => none
        | _ =>
          mrun fuel a prev s (fun p2 s2 =>
            mrun fuel (.rep (lo - 1) (Option.map (fun n => n - 1) hi) a) p2 s2 k)
      match more with
      | some r2 => some r2
      | none => if lo == 0 then k prev s else none

/-- `re.sub` scanner: at each position of the original text try the
pattern; on a (non-empty) match emit the replacement and continue just
past the matched original characters, otherwise emit one character.
`\b` checks always see original characters, as in Python. -/
def subScan : Nat → RE → List Char → Option Char → List Char → List Char
  | 0, _, _, _, s => s
  | fuel + 1, r, repl, prev, s =>
    match mrun (4 * s.length + 100) r prev s (fun p2 s2 => some (p2, s2)) with
    | some (p2, s2) =>
      if s2.length < s.length then repl ++ subScan fuel r repl p2 s2
      else
        match s with
        | [] => []
        | c :: rest => c :: subScan fuel r repl (some c) rest
    | none =>
      match s with
      | [] => []
      | c :: rest => c :: subScan fuel r repl (some c) rest

/-- `re.sub(pattern, repl, s)`. -/
def reSub (r : RE) (repl : String) (s : String) : String :=
  String.mk (subScan (s.data.length + 1) r repl.data none s.data)

/-- Builds `a1 a2 ... an` as nested `seq`. -/
def reSeq (l : List RE) : RE := l.foldr RE.seq RE.eps

/-! Character classes of the five sanitizer regexes. -/

def emailLocalChar (c : Char) : Bool :=
  c.isAlphanum || c == '.' || c == '_' || c == '%' || c == '+' || c == '-'

def emailDomainChar (c : Char) : Bool := c.isAlphanum || c == '.' || c == '-'

/-- The source writes `[A-Z|a-z]`, which also contains a literal bar. -/
def emailTldChar (c : Char) : Bool :=
  ('A' ≤ c && c ≤ 'Z') || c == '|' || ('a' ≤ c && c ≤ 'z')

def alnumChar (c : Char) : Bool := c.isAlphanum

def digitChar (c : Char) : Bool := c.isDigit

def phoneSepChar (c : Char) : Bool := c == '-' || c == '.'

def nonSpaceChar (c : Char) : Bool := !(isPySpace c)

/-- `\b[A-Za-z0-9._%+-]+@[A-Za-z0-9.-]+\.[A-Z|a-z]{2,}\b` -/
def emailRE : RE := reSeq
  [.wb, .rep 1 none (.cls emailLocalChar), .chr '@',
   .rep 1 none (.cls emailDomainChar), .chr '.',
   .rep 2 none (.cls emailTldChar), .wb]

/-- `\b[A-Za-z0-9]{32,}\b` -/
def key32RE : RE := reSeq [.wb, .rep 32 none (.cls alnumChar), .wb]

/-- `sk-[A-Za-z0-9]{48}` -/
def skRE : RE := reSeq
  [.chr 's', .chr 'k', .chr '-', .rep 48 (some 48) (.cls alnumChar)]

/-- `\b(?:[0-9]{1,3}\.){3}[0-9]{1,3}\b` -/
def ipRE : RE := reSeq
  [.wb, .rep 3 (some 3) (reSeq [.rep 1 (some 3) (.cls digitChar), .chr '.']),
   .rep 1 (some 3) (.cls digitChar), .wb]

/-- `\b\d{3}[-.]?\d{3}[-.]?\d{4}\b` -/
def phoneRE : RE := reSeq
  [.wb, .rep 3 (some 3) (.cls digitChar), .opt (.cls phoneSepChar),
   .rep 3 (some 3) (.cls digitChar), .opt (.cls phoneSepChar),
   .rep 4 (some 4) (.cls digitChar), .wb]

/-- `https?://[^\s]+` -/
def urlRE : RE := reSeq
  [.chr 'h', .chr 't', .chr 't', .chr 'p', .opt (.chr 's'),
   .chr ':', .chr '/', .chr '/', .rep 1 none (.cls nonSpaceChar)]

/-- `ResearchAgent._regex_anonymize`: the five substitutions in source
order (email, 32+ alphanumeric runs, `sk-` keys, IPv4, phone, URL). -/
def regexAnonymize (text : String) : String :=
  let t1 := reSub emailRE "[EMAIL]" text
  let t2 := reSub key32RE "[API_KEY]" t1
  let t3 := reSub skRE "[API_KEY]" t2
  let t4 := reSub ipRE "[IP_ADDRESS]" t3
  let t5 := reSub phoneRE "[PHONE]" t4
  reSub urlRE "[URL]" t5

/-! ### `urllib.parse.urlparse` netloc extraction

Model of the part of CPython `urlsplit` that determines `netloc`
(leading C0-control/space stripping, removal of tab/CR/LF, scheme
splitting, `//`-prefixed authority up to the first of `/?#`, and the
`Invalid IPv6 URL` `ValueError` on an unmatched bracket). -/

/-- Characters stripped from the front of a URL by `urlsplit`. -/
def c0OrSpace (c : Char) : Bool := c.val ≤ 32

/-- `_UNSAFE_URL_BYTES_TO_REMOVE`: tab, CR, LF are removed everywhere. -/
def unsafeUrlByte (c : Char) : Bool := c == '\t' || c == '\r' || c == '\n'

/-- Characters allowed in a URL scheme after the first letter. -/
def schemeChar (c : Char) : Bool :=
  c.isAlphanum || c == '+' || c == '-' || c == '.'

/-- Split at the first colon: `some (before, after)` or `none`. -/
def breakAtColon : List Char → Option (List Char × List Char)
  | [] => none
  | c :: cs =>
    if c == ':' then some ([], cs)
    else
      match breakAtColon cs with
      | some (a, b) => some (c :: a, b)
      | none => none

/-- Remove a leading `scheme:` when the part before the first colon is
a non-empty valid scheme starting with a letter. -/
def stripScheme (l : List Char) : List Char :=
  match breakAtColon l with
  | none => l
  | some (before, after) =>
    match before with
    | [] => l
    | c :: _ => if c.isAlpha && before.all schemeChar then after else l

/-- The authority runs until the first `/`, `?` or `#`. -/
def takeNetloc : List Char → List Char
  | [] => []
  | c :: cs => if c == '/' || c == '?' || c == '#' then [] else c :: takeNetloc cs

/-- Authority extraction once a `//` prefix was found: take up to the
first `/?#` and raise `ValueError` on an unmatched `[`/`]`. -/
def netlocOf (rest : List Char) : Except Unit String :=
  if ((takeNetloc rest).contains '[' && !(takeNetloc rest).contains ']') ||
     ((takeNetloc rest).contains ']' && !(takeNetloc rest).contains '[') then .error ()
  else .ok (String.mk (takeNetloc rest))

/-- `urlparse(url).netloc`, with `.error ()` for the `ValueError`
raised on an unmatched `[`/`]`: strip leading C0-control/space
characters, remove tab/CR/LF, strip the scheme, and read the
authority only after a leading `//`. -/
def urlsplitNetloc (url : String) : Except Unit String :=
  match stripScheme ((url.data.dropWhile c0OrSpace).filter (fun c => !unsafeUrlByte c)) with
  | '/' :: '/' :: rest => netlocOf rest
  | _ => .ok ""

/-- `ResearchAgent._extract_domain`: `urlparse(url).netloc`, with
`"unknown"` if the parse raises. -/
def extractDomain (url : String) : String :=
  match urlsplitNetloc url with
  | .ok n => n
  | .error _ => "unknown"

/-! ### Data model (`src/agents/models/research_models.py`) -/

structure ResearchInput where
  context : String
  objective : String
deriving DecidableEq, Repr

/-- `SearchResult` as a plain record; the pydantic range validation of
`relevance_score` lives in the smart constructor `mkSearchResult`. -/
structure SearchResult where
  title : String
  url : String
  content : String
  relevance_score : ℚ
  summary : String
  source_domain : String
deriving DecidableEq, Repr

/-- Pydantic construction of `SearchResult`: `relevance_score` carries
`Field(ge=0, le=1)`, so out-of-range scores raise a validation error. -/
def mkSearchResult (title url content : String) (score : ℚ)
    (summary sourceDomain : String) : Except Unit SearchResult :=
  if 0 ≤ score ∧ score ≤ 1 then
    .ok ⟨title, url, content, score, summary, sourceDomain⟩
  else .error ()

/-- `ResearchOutput`; `research_timestamp` (a wall-clock effect) is
modelled as `Unit`. -/
structure ResearchOutput where
  original_objective : String
  anonymized_queries : List String
  selected_documents : List SearchResult
  total_documents_found : Nat
  research_timestamp : Unit
deriving DecidableEq, Repr

/-! ### Raw documents, parsed analysis entries, oracles -/

/-- An element of the raw Tavily result list: either a dict carrying
`title` / `url` / `content` (absent keys are the `.get` default `""`),
or a non-dict value on which `.get` raises `AttributeError`. -/
inductive RawDoc where
  | dict (title url content : String)
  | str (s : String)
deriving DecidableEq, Repr

def isDictDoc : RawDoc → Bool
  | .dict _ _ _ => true
  | .str _ => false

/-- `doc.get("title", "")`. -/
def rdTitle : RawDoc → Except Unit String
  | .dict t _ _ => .ok t
  | .str _ => .error ()

/-- `doc.get("url", "")`. -/
def rdUrl : RawDoc → Except Unit String
  | .dict _ u _ => .ok u
  | .str _ => .error ()

/-- `doc.get("content", "")`. -/
def rdContent : RawDoc → Except Unit String
  | .dict _ _ c => .ok c
  | .str _ => .error ()

/-- One entry of the JSON-decoded LLM analysis: a dict (with the
defaulted `index`, `relevance_score`, `summary` fields) or a non-dict,
which the loop skips. -/
inductive AEntry where
  | adict (index : Int) (relevance_score : ℚ) (summary : String)
  | nonDict
deriving DecidableEq, Repr

/-- Outcome of `json.loads(response.content.strip())`: a parse failure
or a list of entries. -/
inductive AnalysisResp where
  | notJson
  | parsed (entries : List AEntry)
deriving DecidableEq, Repr

/-- Shape of one `tavily_search_tool.invoke` result: a bare list, a
dict with a `"results"` key, or anything else (contributing nothing). -/
inductive TavilyResult where
  | listRes (docs : List RawDoc)
  | dictResults (docs : List RawDoc)
  | other
deriving DecidableEq, Repr

/-- The external calls of the agent, as oracles. `Except.error`
models the library call raising. -/
structure Oracles where
  anonLLM : String → Except String String
  queryLLM : String → String → Nat → Except String String
  analysisLLM : List RawDoc → String → Except String AnalysisResp
  tavily : String → Except String TavilyResult

/-- Constructor parameters of `ResearchAgent` used by the pipeline. -/
structure AgentConfig where
  num_queries : Nat
  relevance_threshold : ℚ
deriving Repr

/-- Python list indexing: negative indices count from the end;
out-of-range raises `IndexError`. -/
def pyIndex {α : Type} (xs : List α) (i : Int) : Except Unit α :=
  if 0 ≤ (if i < 0 then i + (xs.length : Int) else i) then
    match xs.get? (if i < 0 then i + (xs.length : Int) else i).toNat with
    | some x => .ok x
    | none => .error ()
  else .error ()

/-! ### `ResearchAgent` methods -/

/-- `anonymize_context`: LLM anonymization followed by the regex
backstop; if the LLM call raises, regex-only anonymization of the raw
context. -/
def anonymizeContext (llmResponse : Except String String) (context : String) : String :=
  match llmResponse with
  | .ok content => regexAnonymize (pyStrip content)
  | .error _ => regexAnonymize context

/-- The query-parsing step of `generate_search_queries`:
`[q.strip() for q in content.strip().split('\n') if q.strip()]`. -/
def parseQueryLines (content : String) : List String :=
  (((splitNl (pyStrip content).data).map (fun l => pyStrip (String.mk l)))).filter
    (fun q => q != "")

/-- `generate_search_queries`: parse the response into non-empty
lines; if fewer than `numQueries`, append the objective (once); then
truncate to `numQueries`. On an LLM exception, the single query
`[objective]`. -/
def generateSearchQueries (llmResponse : Except String String)
    (objective : String) (numQueries : Nat) : List String :=
  match llmResponse with
  | .error _ => [objective]
  | .ok content =>
    let queries := parseQueryLines content
    let queries := if queries.length < numQueries then queries ++ [objective] else queries
    queries.take numQueries

/-- One insertion step of the stable descending sort
(`list.sort(key=lambda x: x.relevance_score, reverse=True)`). -/
def insertDesc (x : SearchResult) : List SearchResult → List SearchResult
  | [] => [x]
  | y :: ys =>
    if y.relevance_score < x.relevance_score then x :: y :: ys
    else y :: insertDesc x ys

/-- Stable sort by `relevance_score`, highest first. -/
def sortDesc (l : List SearchResult) : List SearchResult :=
  l.foldl (fun acc x => insertDesc x acc) []

/-- Python `content[:200] + "..." if len(content) > 200 else content`,
applied (in the source) to the already lowercased content. -/
def fallbackSummary (contentLower : String) : String :=
  if contentLower.length > 200 then pyTake contentLower 200 ++ "..." else contentLower

/-- Keyword score of `_fallback_document_analysis`: 0.3 per objective
word occurring in the lowercased title, 0.1 per word occurring in the
lowercased content, capped at 1. -/
def fallbackScoreOf (titleLower contentLower : String) (objective : String) : ℚ :=
  let words := pySplit (pyLower objective)
  let score := words.foldl (fun s w =>
    let s1 := if pyIn w titleLower then s + 3/10 else s
    if pyIn w contentLower then s1 + 1/10 else s1) 0
  pyMinQ score 1

/-- The per-document loop of `_fallback_document_analysis`. A non-dict
document makes `doc.get` raise, which propagates out of the method. -/
def fallbackLoop (objective : String) (threshold : ℚ) :
    List RawDoc → Except Unit (List SearchResult)
  | [] => .ok []
  | doc :: rest =>
    match rdTitle doc, rdContent doc with
    | .ok title, .ok content =>
      let contentLower := pyLower content
      let score := fallbackScoreOf (pyLower title) contentLower objective
      if threshold ≤ score then
        match rdUrl doc with
        | .ok url =>
          match mkSearchResult title url content score
              (fallbackSummary contentLower) (extractDomain url) with
          | .ok sr =>
            match fallbackLoop objective threshold rest with
            | .ok restR => .ok (sr :: restR)
            | .error e => .error e
          | .error e => .error e
        | .error e => .error e
      else fallbackLoop objective threshold rest
    | _, _ => .error ()

/-- `_fallback_document_analysis`: score, filter by threshold, sort by
score descending. -/
def fallbackDocumentAnalysis (docs : List RawDoc) (objective : String)
    (threshold : ℚ) : Except Unit (List SearchResult) :=
  match fallbackLoop objective threshold docs with
  | .ok rs => .ok (sortDesc rs)
  | .error e => .error e

/-- The entry loop of `analyze_and_filter_documents`: skip non-dicts,
skip `index >= len(documents)`, fetch `documents[index]` (Python
indexing), and for entries meeting the threshold build a validated
`SearchResult` from the indexed document. -/
def processEntries (docs : List RawDoc) (threshold : ℚ) :
    List AEntry → Except Unit (List SearchResult)
  | [] => .ok []
  | AEntry.nonDict :: rest => processEntries docs threshold rest
  | AEntry.adict idx score summ :: rest =>
    if (docs.length : Int) ≤ idx then processEntries docs threshold rest
    else
      match pyIndex docs idx with
      | .error e => .error e
      | .ok originalDoc =>
        if threshold ≤ score then
          match rdTitle originalDoc, rdUrl originalDoc, rdContent originalDoc with
          | .ok title, .ok url, .ok content =>
            match mkSearchResult title url content score summ (extractDomain url) with
            | .ok sr =>
              match processEntries docs threshold rest with
              | .ok restR => .ok (sr :: restR)
              | .error e => .error e
            | .error e => .error e
          | _, _, _ => .error ()
        else processEntries docs threshold rest

/-- `analyze_and_filter_documents`. The outer `try` formats every
document (raising on non-dicts), calls the LLM, and on a JSON parse
failure returns the fallback analysis; any exception in the `try`
body is caught and answered with the fallback analysis (whose own
exception, if any, propagates). -/
def analyzeAndFilterDocuments (llm : Except String AnalysisResp)
    (docs : List RawDoc) (objective : String) (threshold : ℚ) :
    Except Unit (List SearchResult) :=
  if docs.isEmpty then .ok []
  else
    match (if docs.all isDictDoc then
        match llm with
        | .error _ => .error ()
        | .ok .notJson => fallbackDocumentAnalysis docs objective threshold
        | .ok (.parsed entries) =>
          match processEntries docs threshold entries with
          | .ok rs => .ok (sortDesc rs)
          | .error e => .error e
      else (.error () : Except Unit (List SearchResult))) with
    | .ok r => .ok r
    | .error _ => fallbackDocumentAnalysis docs objective threshold

/-! ### The LangGraph workflow (`_build_workflow`) and `research` -/

/-- State record threaded through the five nodes. -/
structure ResearchState where
  research_input : Option ResearchInput
  anonymized_context : String
  search_queries : List String
  raw_search_results : List RawDoc
  analyzed_documents : List SearchResult
  final_output : Option ResearchOutput
  error : Option String
deriving DecidableEq, Repr

/-- Python truthiness of `state.get("error")`: `None` and `""` are
falsy, every other string is truthy. -/
def pyTruthyErr : Option String → Bool
  | none => false
  | some s => s != ""

def anonymizeNode (o : Oracles) (st : ResearchState) : ResearchState :=
  match st.research_input with
  | none => { st with error := some "No research input provided" }
  | some ri =>
    { st with anonymized_context := anonymizeContext (o.anonLLM ri.context) ri.context }

def queryGenerationNode (cfg : AgentConfig) (o : Oracles) (st : ResearchState) :
    ResearchState :=
  if pyTruthyErr st.error then st
  else
    match st.research_input with
    | none => { st with error := some "No research input provided" }
    | some ri =>
      { st with search_queries :=
          (generateSearchQueries
            (o.queryLLM st.anonymized_context ri.objective cfg.num_queries)
            ri.objective cfg.num_queries) }

/-- The per-query loop of `search_node`: a raising query is skipped,
list results and `"results"`-dict results are concatenated. -/
def collectSearchResults (o : Oracles) : List String → List RawDoc
  | [] => []
  | q :: qs =>
    (match o.tavily q with
     | .error _ => []
     | .ok (.listRes ds) => ds
     | .ok (.dictResults ds) => ds
     | .ok .other => []) ++ collectSearchResults o qs

def searchNode (o : Oracles) (st : ResearchState) : ResearchState :=
  if pyTruthyErr st.error then st
  else { st with raw_search_results := collectSearchResults o st.search_queries }

def analysisNode (cfg : AgentConfig) (o : Oracles) (st : ResearchState) :
    ResearchState :=
  if pyTruthyErr st.error then st
  else
    match st.research_input with
    | none => { st with error := some "No research input provided" }
    | some ri =>
      match analyzeAndFilterDocuments (o.analysisLLM st.raw_search_results ri.objective)
          st.raw_search_results ri.objective cfg.relevance_threshold with
      | .ok docs => { st with analyzed_documents := docs }
      | .error _ => { st with error := some "Error in document analysis" }

def outputNode (st : ResearchState) : ResearchState :=
  if pyTruthyErr st.error then st
  else
    match st.research_input with
    | none => { st with error := some "No research input provided" }
    | some ri =>
      { st with final_output :=
          (some ⟨ri.objective, st.search_queries, st.analyzed_documents,
            st.raw_search_results.length, ()⟩) }

/-- `workflow.invoke`: the five nodes in their linear edge order. -/
def runWorkflow (cfg : AgentConfig) (o : Oracles) (st : ResearchState) :
    ResearchState :=
  outputNode (analysisNode cfg o (searchNode o (queryGenerationNode cfg o (anonymizeNode o st))))

/-- The initial state built by `research`. -/
def initialState (ri : ResearchInput) : ResearchState :=
  ⟨some ri, "", [], [], [], none, none⟩

/-- The empty/default `ResearchOutput` returned on error. -/
def emptyOutput (objective : String) : ResearchOutput :=
  ⟨objective, [], [], 0, ()⟩

/-- `research`: run the workflow; a (truthy) error or a missing final
output yields the empty result; no exception reaches the caller. -/
def research (cfg : AgentConfig) (o : Oracles) (ri : ResearchInput) :
    ResearchOutput :=
  if pyTruthyErr (runWorkflow cfg o (initialState ri)).error then emptyOutput ri.objective
  else
    match (runWorkflow cfg o (initialState ri)).final_output with
    | some out => out
    | none => emptyOutput ri.objective

/-! ## Claim C1 — query padding -/

/-- C1 counterexample: with `num_queries = 3` and a response holding
exactly one non-empty line, `generate_search_queries` returns 2
queries, not the 3 the claim demands: the objective is appended only
once, not repeated until the requested count is reached. -/
theorem generate_queries_one_line_not_three :
    (generateSearchQueries (Except.ok "only one generated query") "find docs" 3).length ≠ 3 := by
  decide

/-- C1 (amended): when the response parses to fewer non-empty lines
than `num_queries`, `generate_search_queries` appends the raw
objective exactly once and truncates to `num_queries`; the result
therefore has `min (lines + 1) num_queries` entries and can stay
short of `num_queries` (e.g. 2 of 3 when only one line is produced). -/
theorem generate_queries_pads_once (content objective : String) (n : Nat)
    (h : (parseQueryLines content).length < n) :
    generateSearchQueries (Except.ok content) objective n
      = (parseQueryLines content ++ [objective]).take n ∧
    (generateSearchQueries (Except.ok content) objective n).length
      = min ((parseQueryLines content).length + 1) n := by
  refine ⟨by simp [generateSearchQueries, h], ?_⟩
  simp only [generateSearchQueries, h, if_pos, List.length_take, List.length_append,
    List.length_singleton]
  omega

/-- Witness for `generate_queries_pads_once` at a concrete input. -/
theorem generate_queries_pads_once_witness :
    generateSearchQueries (Except.ok "only one generated query") "find docs" 3
      = ["only one generated query", "find docs"] := by
  have h := generate_queries_pads_once "only one generated query" "find docs" 3 (by decide)
  rw [h.1]; decide

/-! ## Claim C5 — sanitizer idempotence -/

/-- C5 counterexample: the sanitizer is not idempotent. For
`"1.2.3.4https://x"` the first pass only replaces the URL (the `4`
touching `https` suppresses the trailing `\b` of the IPv4 pattern),
and the `[` of the inserted `[URL]` token then provides the word
boundary that lets the IPv4 rule fire on the second pass. -/
theorem sanitize_not_idempotent :
    regexAnonymize (regexAnonymize "1.2.3.4https://x") ≠ regexAnonymize "1.2.3.4https://x" := by
  decide

/-- C5 (amended): `sanitize` is not idempotent in general — a
substitution can create a word boundary that enables a further match
on re-sanitization. On the counterexample input the second pass
additionally replaces the IPv4 address and a third pass changes
nothing more. -/
theorem sanitize_second_pass_behavior :
    regexAnonymize "1.2.3.4https://x" = "1.2.3.4[URL]" ∧
    regexAnonymize "1.2.3.4[URL]" = "[IP_ADDRESS][URL]" ∧
    regexAnonymize "[IP_ADDRESS][URL]" = "[IP_ADDRESS][URL]" := by
  refine ⟨by decide, by decide, by decide⟩

/-! ## Claim C6 — source_domain derivation -/

/-- Hosts made of these characters are untouched by URL cleanup and
never terminate or invalidate the authority. -/
def goodHostChar (c : Char) : Bool := c.isAlphanum || c == '.' || c == '-'

lemma good_not_unsafe {c : Char} (h : goodHostChar c = true) :
    (!unsafeUrlByte c) = true := by
  by_cases h1 : c = '\t'
  · subst h1; exact absurd h (by decide)
  · by_cases h2 : c = '\r'
    · subst h2; exact absurd h (by decide)
    · by_cases h3 : c = '\n'
      · subst h3; exact absurd h (by decide)
      · simp [unsafeUrlByte, h1, h2, h3]

lemma good_not_stop {c : Char} (h : goodHostChar c = true) :
    (c == '/' || c == '?' || c == '#') = false := by
  by_cases h1 : c = '/'
  · subst h1; exact absurd h (by decide)
  · by_cases h2 : c = '?'
    · subst h2; exact absurd h (by decide)
    · by_cases h3 : c = '#'
      · subst h3; exact absurd h (by decide)
      · simp [h1, h2, h3]

lemma takeNetloc_append (host r : List Char)
    (h : ∀ c ∈ host, goodHostChar c = true) :
    takeNetloc (host ++ '/' :: r) = host := by
  induction host with
  | nil => simp [takeNetloc]
  | cons c cs ih =>
    have hc := good_not_stop (h c (List.mem_cons_self c cs))
    simp [takeNetloc, hc, ih (fun d hd => h d (List.mem_cons_of_mem c hd))]

lemma contains_bracket_false (host : List Char) (b : Char)
    (hb : goodHostChar b = false)
    (h : ∀ c ∈ host, goodHostChar c = true) :
    host.contains b = false := by
  have hnm : b ∉ host := by
    intro hmem
    rw [h b hmem] at hb
    exact Bool.true_eq_false.mp hb
  simpa using hnm

lemma netlocOf_append (host r : List Char)
    (h : ∀ c ∈ host, goodHostChar c = true) :
    netlocOf (host ++ '/' :: r) = .ok (String.mk host) := by
  unfold netlocOf
  rw [takeNetloc_append host r h]
  rw [contains_bracket_false host '[' (by decide) h,
      contains_bracket_false host ']' (by decide) h]
  simp

/-- C6 counterexample: for the empty URL, `_extract_domain` returns
the empty string (urlparse does not raise there), not `"unknown"` as
the claim states. -/
theorem extract_domain_empty_not_unknown : extractDomain "" ≠ "unknown" := by
  decide

/-- C6 (amended): `source_domain` is the URL's network-location
(authority) component as parsed by `urlparse`; for a well-formed
`https://host/...` URL it is exactly the host; it is `"unknown"` only
when the parse raises (e.g. an unmatched IPv6 bracket); an empty (or
authority-less) URL yields the empty string, not `"unknown"`. -/
theorem extract_domain_behavior (host rest : List Char)
    (hgood : ∀ c ∈ host, goodHostChar c = true) :
    extractDomain (String.mk ('h' :: 't' :: 't' :: 'p' :: 's' :: ':' :: '/' :: '/' ::
        (host ++ '/' :: rest)))
      = String.mk host ∧
    extractDomain "" = "" ∧
    extractDomain "http://[::1" = "unknown" := by
  refine ⟨?_, by decide, by decide⟩
  have hfh : host.filter (fun c => !unsafeUrlByte c) = host :=
    List.filter_eq_self.mpr (fun c hc => good_not_unsafe (hgood c hc))
  have e1 : List.filter (fun c => !unsafeUrlByte c) (host ++ '/' :: rest)
      = host ++ '/' :: List.filter (fun c => !unsafeUrlByte c) rest := by
    rw [List.filter_append, hfh]; rfl
  have e3 : stripScheme (((String.mk ('h' :: 't' :: 't' :: 'p' :: 's' :: ':' :: '/' :: '/' ::
        (host ++ '/' :: rest))).data.dropWhile c0OrSpace).filter (fun c => !unsafeUrlByte c))
      = '/' :: '/' :: (host ++ '/' :: List.filter (fun c => !unsafeUrlByte c) rest) := by
    show stripScheme ('h' :: 't' :: 't' :: 'p' :: 's' :: ':' :: '/' :: '/' ::
        List.filter (fun c => !unsafeUrlByte c) (host ++ '/' :: rest)) = _
    rw [e1]
    rfl
  unfold extractDomain urlsplitNetloc
  rw [e3]
  rw [show ((match ('/' :: '/' :: (host ++ '/' :: List.filter (fun c => !unsafeUrlByte c) rest) :
        List Char) with
      | '/' :: '/' :: rest => netlocOf rest
      | _ => Except.ok "") : Except Unit String)
    = netlocOf (host ++ '/' :: List.filter (fun c => !unsafeUrlByte c) rest) from rfl]
  rw [netlocOf_append host _ hgood]

/-- Witness for `extract_domain_behavior` at a concrete URL. -/
theorem extract_domain_behavior_witness :
    extractDomain "https://example.com/path" = "example.com" ∧
    extractDomain "" = "" ∧
    extractDomain "http://[::1" = "unknown" :=
  extract_domain_behavior "example.com".data "path".data (by decide)

/-! ## Claim C4 — fallback scoring heuristic -/

/-- Weight that one objective word contributes to a document's score
(0.3 for a title occurrence, 0.1 for a content occurrence). -/
def specWordWeight (titleLower contentLower w : String) : ℚ :=
  (if pyIn w titleLower then (3 : ℚ)/10 else 0) +
  (if pyIn w contentLower then (1 : ℚ)/10 else 0)

/-- The claim's scoring formula: split the objective into words, sum
the per-word weights (occurrence checked case-insensitively), cap at
1. -/
def specScore (title content objective : String) : ℚ :=
  pyMinQ (((pySplit (pyLower objective)).map
    (specWordWeight (pyLower title) (pyLower content))).sum) 1

/-- The claim's summary rule, amended: the first 200 characters of the
LOWERCASED content, ellipsis-appended when longer than 200. -/
def specSummary (content : String) : String :=
  if (pyLower content).length > 200 then pyTake (pyLower content) 200 ++ "..."
  else pyLower content

/-- The claim's selection: keep exactly the documents whose score
meets the threshold, sorted by score descending. -/
def specSelected (docs : List (String × String × String)) (objective : String)
    (t : ℚ) : List SearchResult :=
  sortDesc (docs.filterMap (fun d =>
    if t ≤ specScore d.1 d.2.2 objective then
      some ⟨d.1, d.2.1, d.2.2, specScore d.1 d.2.2 objective,
            specSummary d.2.2, extractDomain d.2.1⟩
    else none))

lemma pyMinQ_le_right (a b : ℚ) : pyMinQ a b ≤ b := by
  unfold pyMinQ
  by_cases h : a ≤ b
  · rw [if_pos h]; exact h
  · rw [if_neg h]

lemma pyMinQ_nonneg {a b : ℚ} (ha : 0 ≤ a) (hb : 0 ≤ b) : 0 ≤ pyMinQ a b := by
  unfold pyMinQ
  by_cases h : a ≤ b
  · rw [if_pos h]; exact ha
  · rw [if_neg h]; exact hb

lemma fallback_foldl (tL cL : String) :
    ∀ (l : List String) (z : ℚ),
      List.foldl (fun s w =>
        let s1 := if pyIn w tL then s + 3/10 else s
        if pyIn w cL then s1 + 1/10 else s1) z l
        = z + (l.map (specWordWeight tL cL)).sum
  | [], z => by simp
  | w :: ws, z => by
    simp only [List.foldl_cons, List.map_cons, List.sum_cons]
    rw [fallback_foldl tL cL ws]
    unfold specWordWeight
    by_cases h1 : pyIn w tL <;> by_cases h2 : pyIn w cL <;> simp [h1, h2] <;> ring

lemma fallbackScoreOf_eq_specScore (title content objective : String) :
    fallbackScoreOf (pyLower title) (pyLower content) objective
      = specScore title content objective := by
  show pyMinQ (List.foldl (fun s w =>
      let s1 := if pyIn w (pyLower title) then s + 3/10 else s
      if pyIn w (pyLower content) then s1 + 1/10 else s1) 0
      (pySplit (pyLower objective))) 1
    = specScore title content objective
  rw [fallback_foldl, zero_add]
  rfl

lemma specWordWeight_nonneg (tL cL w : String) : 0 ≤ specWordWeight tL cL w := by
  unfold specWordWeight
  by_cases h1 : pyIn w tL <;> by_cases h2 : pyIn w cL <;> simp [h1, h2] <;> norm_num

lemma specScore_nonneg (title content objective : String) :
    0 ≤ specScore title content objective := by
  unfold specScore
  refine pyMinQ_nonneg ?_ (by norm_num)
  exact List.sum_nonneg (by
    intro x hx
    rcases List.mem_map.mp hx with ⟨w, _, rfl⟩
    exact specWordWeight_nonneg _ _ _)

lemma specScore_le_one (title content objective : String) :
    specScore title content objective ≤ 1 := pyMinQ_le_right _ _

lemma fallbackLoop_dicts (objective : String) (t : ℚ) :
    ∀ docs : List (String × String × String),
      fallbackLoop objective t (docs.map (fun d => RawDoc.dict d.1 d.2.1 d.2.2))
        = .ok (docs.filterMap (fun d =>
            if t ≤ specScore d.1 d.2.2 objective then
              some ⟨d.1, d.2.1, d.2.2, specScore d.1 d.2.2 objective,
                    specSummary d.2.2, extractDomain d.2.1⟩
            else none))
  | [] => rfl
  | d :: rest => by
    obtain ⟨a, b, c⟩ := d
    simp only [List.map_cons, fallbackLoop, rdTitle, rdContent, rdUrl]
    rw [fallbackScoreOf_eq_specScore a c objective]
    by_cases hsc : t ≤ specScore a c objective
    · rw [if_pos hsc]
      have hmk : mkSearchResult a b c (specScore a c objective)
          (fallbackSummary (pyLower c)) (extractDomain b)
          = .ok ⟨a, b, c, specScore a c objective,
                 fallbackSummary (pyLower c), extractDomain b⟩ := by
        unfold mkSearchResult
        rw [if_pos ⟨specScore_nonneg a c objective, specScore_le_one a c objective⟩]
      rw [hmk, fallbackLoop_dicts objective t rest]
      simp [List.filterMap_cons, hsc]
      rfl
    · rw [if_neg hsc, fallbackLoop_dicts objective t rest]
      simp [List.filterMap_cons, hsc]

/-- C4 counterexample: the claim predicts that the kept document's
summary is the first 200 characters of its content (here `"Hello"`),
but the code builds the summary from the LOWERCASED content, yielding
`"hello"`. (Objective `"hello hello"` scores 2 × (0.3 + 0.1) = 0.8 ≥
0.5, so the document is kept.) -/
theorem fallback_summary_not_original_content :
    (fallbackDocumentAnalysis [RawDoc.dict "hello" "" "Hello"] "hello hello"
        (1/2)).toOption.map (fun l => l.map SearchResult.summary)
      ≠ some ["Hello"] := by
  with_unfolding_all decide

/-- C4 (amended): on dict documents the fallback analysis never
raises and returns exactly the claim's selection — per-document score
`min (Σ 0.3·[word in title] + 0.1·[word in content]) 1` computed
case-insensitively, documents kept iff the score meets the threshold,
sorted by score descending — except that each kept document's summary
is the first 200 characters of its LOWERCASED content
(ellipsis-appended when longer than 200), not of the original
content. -/
theorem fallback_analysis_matches_amended_spec
    (docs : List (String × String × String)) (objective : String) (t : ℚ) :
    fallbackDocumentAnalysis (docs.map (fun d => RawDoc.dict d.1 d.2.1 d.2.2))
        objective t
      = Except.ok (specSelected docs objective t) := by
  unfold fallbackDocumentAnalysis specSelected
  rw [fallbackLoop_dicts objective t docs]

/-! ## Claim C8 — descending sort of selected documents -/

/-- Sorted non-increasingly by `relevance_score`. -/
def sortedByScoreDesc (l : List SearchResult) : Prop :=
  List.Pairwise (fun a b => b.relevance_score ≤ a.relevance_score) l

lemma mem_insertDesc {x a : SearchResult} :
    ∀ {l : List SearchResult}, a ∈ insertDesc x l → a = x ∨ a ∈ l := by
  intro l
  induction l with
  | nil => simp [insertDesc]
  | cons y ys ih =>
    simp only [insertDesc]
    by_cases h : y.relevance_score < x.relevance_score
    · rw [if_pos h]
      intro hm
      rcases List.mem_cons.mp hm with h1 | h1
      · exact Or.inl h1
      · exact Or.inr h1
    · rw [if_neg h]
      intro hm
      rcases List.mem_cons.mp hm with h1 | h1
      · exact Or.inr (h1 ▸ List.mem_cons_self y ys)
      · rcases ih h1 with h2 | h2
        · exact Or.inl h2
        · exact Or.inr (List.mem_cons_of_mem y h2)

lemma pairwise_insertDesc {x : SearchResult} :
    ∀ {l : List SearchResult}, sortedByScoreDesc l →
      sortedByScoreDesc (insertDesc x l) := by
  intro l
  induction l with
  | nil => intro _; simp [insertDesc, sortedByScoreDesc]
  | cons y ys ih =>
    intro h
    rcases List.pairwise_cons.mp h with ⟨hy, hys⟩
    simp only [insertDesc]
    by_cases hc : y.relevance_score < x.relevance_score
    · rw [if_pos hc]
      refine List.pairwise_cons.mpr ⟨?_, h⟩
      intro b hb
      rcases List.mem_cons.mp hb with h1 | h1
      · exact h1 ▸ le_of_lt hc
      · exact le_trans (hy b h1) (le_of_lt hc)
    · rw [if_neg hc]
      refine List.pairwise_cons.mpr ⟨?_, ih hys⟩
      intro b hb
      rcases mem_insertDesc hb with h1 | h1
      · exact h1 ▸ le_of_not_lt hc
      · exact hy b h1

lemma sortDesc_sorted (l : List SearchResult) : sortedByScoreDesc (sortDesc l) := by
  have key : ∀ (m : List SearchResult) (acc : List SearchResult),
      sortedByScoreDesc acc →
      sortedByScoreDesc (List.foldl (fun acc x => insertDesc x acc) acc m) := by
    intro m
    induction m with
    | nil => intro acc h; exact h
    | cons x xs ih =>
      intro acc h
      exact ih (insertDesc x acc) (pairwise_insertDesc h)
  exact key l [] (List.Pairwise.nil)

lemma fallback_sorted {docs : List RawDoc} {objective : String} {t : ℚ}
    {l : List SearchResult}
    (h : fallbackDocumentAnalysis docs objective t = .ok l) :
    sortedByScoreDesc l := by
  unfold fallbackDocumentAnalysis at h
  revert h
  cases hl : fallbackLoop objective t docs with
  | ok rs =>
    intro h
    cases h
    exact sortDesc_sorted rs
  | error e => intro h; cases h

lemma analyze_ok_cases {llm : Except String AnalysisResp} {docs : List RawDoc}
    {objective : String} {t : ℚ} {l : List SearchResult}
    (h : analyzeAndFilterDocuments llm docs objective t = .ok l) :
    l = [] ∨ (∃ rs, l = sortDesc rs) ∨
      fallbackDocumentAnalysis docs objective t = .ok l := by
  unfold analyzeAndFilterDocuments at h
  by_cases he : docs.isEmpty
  · rw [if_pos he] at h
    cases h
    exact Or.inl rfl
  · rw [if_neg he] at h
    revert h
    cases hb : (if docs.all isDictDoc then
        match llm with
        | Except.error _ => Except.error ()
        | Except.ok AnalysisResp.notJson => fallbackDocumentAnalysis docs objective t
        | Except.ok (AnalysisResp.parsed entries) =>
          match processEntries docs t entries with
          | Except.ok rs => Except.ok (sortDesc rs)
          | Except.error e => Except.error e
      else (Except.error () : Except Unit (List SearchResult))) with
    | ok r =>
      intro h
      cases h
      by_cases hd : docs.all isDictDoc
      · rw [if_pos hd] at hb
        cases llm with
        | error e2 => cases hb
        | ok resp =>
          cases resp with
          | notJson => exact Or.inr (Or.inr hb)
          | parsed entries =>
            change (match processEntries docs t entries with
              | Except.ok rs => Except.ok (sortDesc rs)
              | Except.error e => Except.error e) = Except.ok l at hb
            revert hb
            cases hp : processEntries docs t entries with
            | ok rs => intro hb; cases hb; exact Or.inr (Or.inl ⟨rs, rfl⟩)
            | error e2 => intro hb; cases hb
      · rw [if_neg hd] at hb
        cases hb
    | error e =>
      intro h
      exact Or.inr (Or.inr h)

/-- C8: every selected-documents list produced by
`analyze_and_filter_documents` — through the LLM-analysis path or the
fallback heuristic — is sorted in non-increasing order of
`relevance_score` (in particular every non-empty one, as the claim
states). -/
theorem selected_documents_sorted_desc (llm : Except String AnalysisResp)
    (docs : List RawDoc) (objective : String) (t : ℚ) (l : List SearchResult) :
    (analyzeAndFilterDocuments llm docs objective t = .ok l → sortedByScoreDesc l) ∧
    (fallbackDocumentAnalysis docs objective t = .ok l → sortedByScoreDesc l) := by
  refine ⟨?_, fallback_sorted⟩
  intro h
  rcases analyze_ok_cases h with h1 | ⟨rs, h1⟩ | h1
  · exact h1 ▸ List.Pairwise.nil
  · exact h1 ▸ sortDesc_sorted rs
  · exact fallback_sorted h1

/-- Witness for `selected_documents_sorted_desc`: a concrete LLM-path
run producing two documents (scores 0.8 then 0.6), and a concrete
fallback run. -/
theorem selected_documents_sorted_desc_witness :
    sortedByScoreDesc
      [⟨"b", "", "y", 4/5, "s1", ""⟩, ⟨"a", "", "x", 3/5, "s0", ""⟩] ∧
    sortedByScoreDesc ([] : List SearchResult) :=
  ⟨(selected_documents_sorted_desc
      (.ok (.parsed [AEntry.adict 0 (3/5) "s0", AEntry.adict 1 (4/5) "s1"]))
      [RawDoc.dict "a" "" "x", RawDoc.dict "b" "" "y"] "o" (1/2)
      [⟨"b", "", "y", 4/5, "s1", ""⟩, ⟨"a", "", "x", 3/5, "s0", ""⟩]).1
      (by with_unfolding_all decide),
   (selected_documents_sorted_desc
      (.ok (.parsed [AEntry.adict 0 (3/5) "s0", AEntry.adict 1 (4/5) "s1"]))
      [RawDoc.dict "a" "" "x", RawDoc.dict "b" "" "y"] "o" (1/2) []).2
      (by with_unfolding_all decide)⟩

/-! ## Claim C9 — negative analysis indices -/

/-- C9: in `analyze_and_filter_documents` an entry is skipped only
when its index is `>= len(documents)`; a negative index `idx` with
`-len <= idx < 0` is not rejected and (by Python indexing) resolves to
the document at position `len + idx`, i.e. counted from the end, whose
title/url/content the produced `SearchResult` then carries — an
unintended document for an LLM that meant to reject the entry. -/
theorem analysis_entry_negative_index_resolves_from_end
    (docs : List RawDoc) (t : ℚ) (idx : Int) (score : ℚ) (summ : String)
    (rest : List AEntry) (ti u co : String) :
    ((docs.length : Int) ≤ idx →
      processEntries docs t (AEntry.adict idx score summ :: rest)
        = processEntries docs t rest) ∧
    (idx < 0 → -(docs.length : Int) ≤ idx →
      docs.get? (idx + (docs.length : Int)).toNat = some (RawDoc.dict ti u co) →
      t ≤ score → 0 ≤ score → score ≤ 1 →
      processEntries docs t [AEntry.adict idx score summ]
        = .ok [⟨ti, u, co, score, summ, extractDomain u⟩]) := by
  constructor
  · intro hge
    simp only [processEntries]
    rw [if_pos hge]
  · intro hneg hge hget hth h0 h1
    have hnle : ¬ ((docs.length : Int) ≤ idx) := by omega
    have hpy : pyIndex docs idx = .ok (RawDoc.dict ti u co) := by
      unfold pyIndex
      rw [if_pos hneg]
      rw [if_pos (show (0 : Int) ≤ idx + (docs.length : Int) by omega)]
      rw [hget]
    have hmk : mkSearchResult ti u co score summ (extractDomain u)
        = .ok ⟨ti, u, co, score, summ, extractDomain u⟩ := by
      unfold mkSearchResult
      rw [if_pos ⟨h0, h1⟩]
    simp only [processEntries]
    rw [if_neg hnle, hpy]
    change (if t ≤ score then
        match mkSearchResult ti u co score summ (extractDomain u) with
        | Except.ok sr => Except.ok [sr]
        | Except.error e => Except.error e
      else Except.ok []) = _
    rw [if_pos hth, hmk]

/-- Witness for `analysis_entry_negative_index_resolves_from_end`:
with two documents, index 5 is skipped while index -1 attaches the
entry's score and summary to the second (last) document. -/
theorem analysis_entry_negative_index_witness :
    (processEntries [RawDoc.dict "a" "ua" "ca", RawDoc.dict "b" "ub" "cb"] (1/2)
        (AEntry.adict 5 (3/5) "s" :: [])
      = processEntries [RawDoc.dict "a" "ua" "ca", RawDoc.dict "b" "ub" "cb"] (1/2) []) ∧
    processEntries [RawDoc.dict "a" "ua" "ca", RawDoc.dict "b" "ub" "cb"] (1/2)
        [AEntry.adict (-1) (3/5) "s"]
      = .ok [⟨"b", "ub", "cb", 3/5, "s", extractDomain "ub"⟩] :=
  ⟨(analysis_entry_negative_index_resolves_from_end
      [RawDoc.dict "a" "ua" "ca", RawDoc.dict "b" "ub" "cb"] (1/2) 5 (3/5) "s" []
      "b" "ub" "cb").1 (by decide),
   (analysis_entry_negative_index_resolves_from_end
      [RawDoc.dict "a" "ua" "ca", RawDoc.dict "b" "ub" "cb"] (1/2) (-1) (3/5) "s" []
      "b" "ub" "cb").2 (by decide) (by decide) (by decide)
      (by with_unfolding_all decide) (by with_unfolding_all decide)
      (by with_unfolding_all decide)⟩

/-! ## Claim C10 — invalid scores discard the whole LLM analysis -/

lemma processEntries_cons_adict_dict (docs : List RawDoc) (t : ℚ) (i : Int)
    (s : ℚ) (m : String) (rest : List AEntry)
    (hnle : ¬ ((docs.length : Int) ≤ i)) (a b c : String)
    (hpy : pyIndex docs i = .ok (RawDoc.dict a b c)) :
    processEntries docs t (AEntry.adict i s m :: rest)
      = (if t ≤ s then
          match mkSearchResult a b c s m (extractDomain b) with
          | Except.ok sr =>
            (match processEntries docs t rest with
             | Except.ok restR => Except.ok (sr :: restR)
             | Except.error e => Except.error e)
          | Except.error e => Except.error e
        else processEntries docs t rest) := by
  simp only [processEntries]
  rw [if_neg hnle, hpy]
  rfl

lemma processEntries_cons_adict_str (docs : List RawDoc) (t : ℚ) (i : Int)
    (s : ℚ) (m : String) (rest : List AEntry)
    (hnle : ¬ ((docs.length : Int) ≤ i)) (s2 : String)
    (hpy : pyIndex docs i = .ok (RawDoc.str s2)) :
    processEntries docs t (AEntry.adict i s m :: rest)
      = (if t ≤ s then Except.error () else processEntries docs t rest) := by
  simp only [processEntries]
  rw [if_neg hnle, hpy]
  rfl

lemma pyIndex_ok_of_range (docs : List RawDoc) (i : Int)
    (hlt : i < (docs.length : Int)) (hge : -(docs.length : Int) ≤ i) :
    ∃ d, pyIndex docs i = Except.ok d := by
  by_cases hs : i < 0
  · have hlt2 : (i + (docs.length : Int)).toNat < docs.length := by omega
    cases hq : docs.get? (i + (docs.length : Int)).toNat with
    | none => exact absurd (List.get?_eq_none.mp hq) (by omega)
    | some d =>
      refine ⟨d, ?_⟩
      unfold pyIndex
      rw [if_pos hs,
        if_pos (show (0 : Int) ≤ i + (docs.length : Int) by omega), hq]
  · have hlt2 : i.toNat < docs.length := by omega
    cases hq : docs.get? i.toNat with
    | none => exact absurd (List.get?_eq_none.mp hq) (by omega)
    | some d =>
      refine ⟨d, ?_⟩
      unfold pyIndex
      rw [if_neg hs, if_pos (show (0 : Int) ≤ i by omega), hq]

lemma processEntries_error_of_bad (docs : List RawDoc) (t : ℚ) :
    ∀ entries : List AEntry,
      (∃ idx score summ, AEntry.adict idx score summ ∈ entries ∧
        idx < (docs.length : Int) ∧ -(docs.length : Int) ≤ idx ∧ t ≤ score ∧
        ¬(0 ≤ score ∧ score ≤ 1)) →
      processEntries docs t entries = .error () := by
  intro entries
  induction entries with
  | nil =>
    rintro ⟨idx, score, summ, hmem, _⟩
    cases hmem
  | cons e rest ih =>
    rintro ⟨idx, score, summ, hmem, hlt, hge, hth, hbad⟩
    rcases List.mem_cons.mp hmem with heq | hmem2
    · subst heq
      obtain ⟨d, hpy⟩ := pyIndex_ok_of_range docs idx hlt hge
      cases d with
      | str s2 =>
        rw [processEntries_cons_adict_str docs t idx score summ rest (by omega) s2 hpy,
          if_pos hth]
      | dict a b c =>
        have hmk : mkSearchResult a b c score summ (extractDomain b)
            = Except.error () := by
          unfold mkSearchResult
          rw [if_neg hbad]
        rw [processEntries_cons_adict_dict docs t idx score summ rest (by omega) a b c hpy,
          if_pos hth, hmk]
    · have hrec : processEntries docs t rest = .error () :=
        ih ⟨idx, score, summ, hmem2, hlt, hge, hth, hbad⟩
      cases e with
      | nonDict =>
        simp only [processEntries]
        exact hrec
      | adict i s m =>
        by_cases hski : (docs.length : Int) ≤ i
        · simp only [processEntries]
          rw [if_pos hski]
          exact hrec
        · cases hq : pyIndex docs i with
          | error e2 =>
            simp only [processEntries]
            rw [if_neg hski, hq]
          | ok d =>
            cases d with
            | str s2 =>
              rw [processEntries_cons_adict_str docs t i s m rest hski s2 hq]
              by_cases hts : t ≤ s
              · rw [if_pos hts]
              · rw [if_neg hts]
                exact hrec
            | dict a b c =>
              rw [processEntries_cons_adict_dict docs t i s m rest hski a b c hq]
              by_cases hts : t ≤ s
              · rw [if_pos hts]
                cases hmk2 : mkSearchResult a b c s m (extractDomain b) with
                | error e3 => rfl
                | ok sr => rw [hrec]
              · rw [if_neg hts]
                exact hrec

/-- C10: if any parsed analysis entry carries a relevance score
outside [0,1] that meets the threshold (and addresses an existing
document), constructing the `SearchResult` raises the pydantic range
validation, the exception is caught by `analyze_and_filter_documents`,
and the entire LLM analysis — valid entries included — is replaced by
the fallback keyword heuristic over all raw documents. -/
theorem invalid_relevance_score_discards_llm_analysis
    (entries : List AEntry) (docs : List RawDoc) (objective : String) (t : ℚ)
    (idx : Int) (score : ℚ) (summ : String)
    (hmem : AEntry.adict idx score summ ∈ entries)
    (hlt : idx < (docs.length : Int)) (hge : -(docs.length : Int) ≤ idx)
    (hth : t ≤ score) (hbad : ¬(0 ≤ score ∧ score ≤ 1))
    (hne : ¬ docs.isEmpty) :
    analyzeAndFilterDocuments (.ok (.parsed entries)) docs objective t
      = fallbackDocumentAnalysis docs objective t := by
  have herr : processEntries docs t entries = .error () :=
    processEntries_error_of_bad docs t entries
      ⟨idx, score, summ, hmem, hlt, hge, hth, hbad⟩
  unfold analyzeAndFilterDocuments
  rw [if_neg hne]
  by_cases hd : docs.all isDictDoc
  · rw [if_pos hd]
    change (match (match processEntries docs t entries with
        | Except.ok rs => Except.ok (sortDesc rs)
        | Except.error e => Except.error e) with
      | Except.ok r => Except.ok r
      | Except.error _ => fallbackDocumentAnalysis docs objective t) = _
    rw [herr]
  · rw [if_neg hd]

/-- Witness for `invalid_relevance_score_discards_llm_analysis`: one
document, one entry with a valid index but score 1.5. -/
theorem invalid_relevance_score_discards_llm_analysis_witness :
    analyzeAndFilterDocuments (.ok (.parsed [AEntry.adict 0 (3/2) "s"]))
        [RawDoc.dict "a" "u" "c"] "zz" (1/2)
      = fallbackDocumentAnalysis [RawDoc.dict "a" "u" "c"] "zz" (1/2) :=
  invalid_relevance_score_discards_llm_analysis _ _ _ _ 0 (3/2) "s"
    (by with_unfolding_all decide) (by decide) (by decide)
    (by with_unfolding_all decide) (by with_unfolding_all decide) (by decide)

/-! ## Claim C3 — error short-circuiting of the stages -/

/-- Concrete oracles for counterexamples and witnesses. -/
def cexOracles : Oracles :=
  { anonLLM := fun _ => .error "down"
    queryLLM := fun _ _ _ => .ok "q1"
    analysisLLM := fun _ _ => .ok .notJson
    tavily := fun _ => .ok .other }

/-- A pipeline state whose error field is SET — but to the empty
string. -/
def emptyErrState : ResearchState :=
  ⟨some ⟨"", "obj"⟩, "", [], [], [], none, some ""⟩

/-- C3 counterexample: the stages guard with Python truthiness
(`if state.get("error")`), so a state whose error field is set to the
empty string is NOT passed through unchanged — GENERATE_QUERIES runs
and overwrites `search_queries`. The claim quantifies over every state
with the error field set, and fails on this one. -/
theorem stage_runs_despite_empty_error :
    queryGenerationNode ⟨2, 1/2⟩ cexOracles emptyErrState ≠ emptyErrState := by
  with_unfolding_all decide

/-- C3 (amended): each of GENERATE_QUERIES, SEARCH, ANALYZE and
ASSEMBLE returns the state unchanged whenever the error field holds a
NON-EMPTY string. (An empty-string error does not short-circuit, by
Python truthiness; but every error the pipeline itself records is
non-empty, so all reachable error states skip all four stages.) -/
theorem stages_unchanged_on_nonempty_error (cfg : AgentConfig) (o : Oracles)
    (st : ResearchState) (s : String) (h1 : st.error = some s) (h2 : s ≠ "") :
    queryGenerationNode cfg o st = st ∧ searchNode o st = st ∧
    analysisNode cfg o st = st ∧ outputNode st = st := by
  have ht : pyTruthyErr st.error = true := by
    rw [h1]
    simpa [pyTruthyErr] using h2
  refine ⟨?_, ?_, ?_, ?_⟩
  · unfold queryGenerationNode
    rw [ht]
    rfl
  · unfold searchNode
    rw [ht]
    rfl
  · unfold analysisNode
    rw [ht]
    rfl
  · unfold outputNode
    rw [ht]
    rfl

/-- Witness state for the amended C3 theorem: a non-empty error. -/
def boomErrState : ResearchState :=
  ⟨some ⟨"", "obj"⟩, "", [], [], [], none, some "boom"⟩

/-- Witness for `stages_unchanged_on_nonempty_error`. -/
theorem stages_unchanged_on_nonempty_error_witness :
    queryGenerationNode ⟨2, 1/2⟩ cexOracles boomErrState = boomErrState ∧
    searchNode cexOracles boomErrState = boomErrState ∧
    analysisNode ⟨2, 1/2⟩ cexOracles boomErrState = boomErrState ∧
    outputNode boomErrState = boomErrState :=
  stages_unchanged_on_nonempty_error ⟨2, 1/2⟩ cexOracles boomErrState "boom"
    rfl (by decide)

/-! ## Workflow-level lemmas (for claims C2 and C7) -/

lemma anonymizeNode_some (o : Oracles) (st : ResearchState) (ri : ResearchInput)
    (h : st.research_input = some ri) :
    anonymizeNode o st
      = { st with anonymized_context :=
            anonymizeContext (o.anonLLM ri.context) ri.context } := by
  unfold anonymizeNode
  rw [h]

lemma queryGenerationNode_ok (cfg : AgentConfig) (o : Oracles)
    (st : ResearchState) (ri : ResearchInput) (he : st.error = none)
    (h : st.research_input = some ri) :
    queryGenerationNode cfg o st
      = { st with search_queries :=
            (generateSearchQueries
              (o.queryLLM st.anonymized_context ri.objective cfg.num_queries)
              ri.objective cfg.num_queries) } := by
  unfold queryGenerationNode
  rw [he, h]
  exact rfl

lemma searchNode_ok (o : Oracles) (st : ResearchState) (he : st.error = none) :
    searchNode o st
      = { st with raw_search_results := collectSearchResults o st.search_queries } := by
  unfold searchNode
  rw [he]
  exact rfl

lemma analysisNode_ok (cfg : AgentConfig) (o : Oracles) (st : ResearchState)
    (ri : ResearchInput) (ds : List SearchResult) (he : st.error = none)
    (h : st.research_input = some ri)
    (ha : analyzeAndFilterDocuments (o.analysisLLM st.raw_search_results ri.objective)
        st.raw_search_results ri.objective cfg.relevance_threshold = .ok ds) :
    analysisNode cfg o st = { st with analyzed_documents := ds } := by
  obtain ⟨inp, ac, sq, raw, ad, fo, err⟩ := st
  obtain rfl : inp = some ri := h
  obtain rfl : err = none := he
  unfold analysisNode
  change (match analyzeAndFilterDocuments (o.analysisLLM raw ri.objective)
      raw ri.objective cfg.relevance_threshold with
    | Except.ok docs => (⟨some ri, ac, sq, raw, docs, fo, none⟩ : ResearchState)
    | Except.error _ => ⟨some ri, ac, sq, raw, ad, fo, some "Error in document analysis"⟩) = _
  rw [ha]

lemma analysisNode_err (cfg : AgentConfig) (o : Oracles) (st : ResearchState)
    (ri : ResearchInput) (e : Unit) (he : st.error = none)
    (h : st.research_input = some ri)
    (ha : analyzeAndFilterDocuments (o.analysisLLM st.raw_search_results ri.objective)
        st.raw_search_results ri.objective cfg.relevance_threshold = .error e) :
    analysisNode cfg o st = { st with error := some "Error in document analysis" } := by
  obtain ⟨inp, ac, sq, raw, ad, fo, err⟩ := st
  obtain rfl : inp = some ri := h
  obtain rfl : err = none := he
  unfold analysisNode
  change (match analyzeAndFilterDocuments (o.analysisLLM raw ri.objective)
      raw ri.objective cfg.relevance_threshold with
    | Except.ok docs => (⟨some ri, ac, sq, raw, docs, fo, none⟩ : ResearchState)
    | Except.error _ => ⟨some ri, ac, sq, raw, ad, fo, some "Error in document analysis"⟩) = _
  rw [ha]

lemma outputNode_ok (st : ResearchState) (ri : ResearchInput)
    (he : st.error = none) (h : st.research_input = some ri) :
    outputNode st
      = { st with final_output :=
            (some ⟨ri.objective, st.search_queries, st.analyzed_documents,
              st.raw_search_results.length, ()⟩) } := by
  unfold outputNode
  rw [he, h]
  exact rfl

lemma outputNode_skip (st : ResearchState) (ht : pyTruthyErr st.error = true) :
    outputNode st = st := by
  unfold outputNode
  rw [ht]
  exact rfl

/-- State after the ANONYMIZE stage of a run started by `research`. -/
def stAnon (o : Oracles) (ri : ResearchInput) : ResearchState :=
  { initialState ri with anonymized_context :=
      (anonymizeContext (o.anonLLM ri.context) ri.context) }

/-- The queries generated in such a run. -/
def runQueries (cfg : AgentConfig) (o : Oracles) (ri : ResearchInput) : List String :=
  generateSearchQueries
    (o.queryLLM (anonymizeContext (o.anonLLM ri.context) ri.context)
      ri.objective cfg.num_queries)
    ri.objective cfg.num_queries

/-- The raw documents collected in such a run by the SEARCH stage. -/
def runRawDocs (cfg : AgentConfig) (o : Oracles) (ri : ResearchInput) : List RawDoc :=
  collectSearchResults o (runQueries cfg o ri)

/-- State after the SEARCH stage of a run started by `research`. -/
def stSearch (cfg : AgentConfig) (o : Oracles) (ri : ResearchInput) : ResearchState :=
  { stAnon o ri with
      search_queries := runQueries cfg o ri
      raw_search_results := runRawDocs cfg o ri }

lemma run_to_stSearch (cfg : AgentConfig) (o : Oracles) (ri : ResearchInput) :
    searchNode o (queryGenerationNode cfg o (anonymizeNode o (initialState ri)))
      = stSearch cfg o ri := by
  rw [anonymizeNode_some o (initialState ri) ri rfl]
  rw [queryGenerationNode_ok cfg o _ ri rfl rfl]
  rw [searchNode_ok o _ rfl]
  exact rfl

lemma runWorkflow_error_options (cfg : AgentConfig) (o : Oracles) (ri : ResearchInput) :
    (runWorkflow cfg o (initialState ri)).error = none ∨
    (runWorkflow cfg o (initialState ri)).error = some "Error in document analysis" := by
  unfold runWorkflow
  rw [run_to_stSearch]
  cases ha : analyzeAndFilterDocuments
      (o.analysisLLM (stSearch cfg o ri).raw_search_results ri.objective)
      (stSearch cfg o ri).raw_search_results ri.objective cfg.relevance_threshold with
  | ok ds =>
    rw [analysisNode_ok cfg o (stSearch cfg o ri) ri ds rfl rfl ha]
    rw [outputNode_ok _ ri rfl rfl]
    exact Or.inl rfl
  | error e =>
    rw [analysisNode_err cfg o (stSearch cfg o ri) ri e rfl rfl ha]
    rw [outputNode_skip { stSearch cfg o ri with error := some "Error in document analysis" } (by exact rfl)]
    exact Or.inr rfl

/-! ## Claim C2 — the pipeline never raises; errors yield empty output -/

/-- C2: `research` is a total function into `ResearchOutput` (never
raises — every exception of the embedded code is handled internally),
and whenever the workflow has recorded a stage error, the returned
output is the empty/default value (`anonymized_queries = []`,
`selected_documents = []`, `total_documents_found = 0`). -/
theorem research_error_yields_empty_output (cfg : AgentConfig) (o : Oracles)
    (ri : ResearchInput)
    (h : (runWorkflow cfg o (initialState ri)).error ≠ none) :
    research cfg o ri = emptyOutput ri.objective := by
  rcases runWorkflow_error_options cfg o ri with h0 | h0
  · exact absurd h0 h
  · unfold research
    rw [h0]
    exact rfl

/-- Oracles making the ANALYZE stage record an error: the search tool
returns a non-dict result element, on which both the LLM formatting
step and the fallback heuristic raise `AttributeError`. -/
def failOracles : Oracles :=
  { anonLLM := fun _ => .error "down"
    queryLLM := fun _ _ _ => .ok "q1"
    analysisLLM := fun _ _ => .ok .notJson
    tavily := fun _ => .ok (.listRes [RawDoc.str "not a dict"]) }

/-- Witness for `research_error_yields_empty_output`. -/
theorem research_error_yields_empty_output_witness :
    research ⟨2, 1/2⟩ failOracles ⟨"", "obj"⟩ = emptyOutput "obj" :=
  research_error_yields_empty_output ⟨2, 1/2⟩ failOracles ⟨"", "obj"⟩
    (by with_unfolding_all decide)

/-! ## Claim C7 — total_documents_found counts raw candidates -/

/-- C7: in every error-free pipeline run started by `research`'s
initial state, the assembled output's `total_documents_found` equals
the length of the raw document list that the SEARCH stage collected
(before any filtering) — in particular also when `selected_documents`
is empty because every document fell below the threshold. -/
theorem total_documents_found_counts_raw_candidates (cfg : AgentConfig)
    (o : Oracles) (ri : ResearchInput) (out : ResearchOutput)
    (herr : (runWorkflow cfg o (initialState ri)).error = none)
    (hout : (runWorkflow cfg o (initialState ri)).final_output = some out) :
    out.total_documents_found
      = (runWorkflow cfg o (initialState ri)).raw_search_results.length ∧
    (runWorkflow cfg o (initialState ri)).raw_search_results
      = collectSearchResults o ((runWorkflow cfg o (initialState ri)).search_queries) := by
  unfold runWorkflow at herr hout ⊢
  rw [run_to_stSearch] at herr hout ⊢
  cases ha : analyzeAndFilterDocuments
      (o.analysisLLM (stSearch cfg o ri).raw_search_results ri.objective)
      (stSearch cfg o ri).raw_search_results ri.objective cfg.relevance_threshold with
  | ok ds =>
    rw [analysisNode_ok cfg o (stSearch cfg o ri) ri ds rfl rfl ha] at hout ⊢
    rw [outputNode_ok _ ri rfl rfl] at hout ⊢
    cases hout
    exact ⟨rfl, rfl⟩
  | error e =>
    rw [analysisNode_err cfg o (stSearch cfg o ri) ri e rfl rfl ha] at herr
    rw [outputNode_skip { stSearch cfg o ri with error := some "Error in document analysis" } (by exact rfl)] at herr
    cases herr

/-- Oracles for an error-free run with 2 raw documents, none of which
meets the threshold. -/
def twoDocOracles : Oracles :=
  { anonLLM := fun _ => .error "down"
    queryLLM := fun _ _ _ => .ok "qq"
    analysisLLM := fun _ _ => .ok .notJson
    tavily := fun _ => .ok (.listRes [RawDoc.dict "t1" "" "c1", RawDoc.dict "t2" "" "c2"]) }

/-- Witness for `total_documents_found_counts_raw_candidates`: the
final output reports 2 documents found while selecting none. -/
theorem total_documents_found_counts_raw_candidates_witness :
    (⟨"zzz", ["qq"], [], 2, ()⟩ : ResearchOutput).total_documents_found
      = (runWorkflow ⟨1, 1/2⟩ twoDocOracles (initialState ⟨"", "zzz"⟩)).raw_search_results.length ∧
    (runWorkflow ⟨1, 1/2⟩ twoDocOracles (initialState ⟨"", "zzz"⟩)).raw_search_results
      = collectSearchResults twoDocOracles
          ((runWorkflow ⟨1, 1/2⟩ twoDocOracles (initialState ⟨"", "zzz"⟩)).search_queries) :=
  total_documents_found_counts_raw_candidates ⟨1, 1/2⟩ twoDocOracles ⟨"", "zzz"⟩
    ⟨"zzz", ["qq"], [], 2, ()⟩
    (by with_unfolding_all decide) (by with_unfolding_all decide)

end PChat
